import Mathlib

/-!
Verification development for the image-service-mcp repository.

The repository is a TypeScript MCP server in three near-identical variants:
`src/index.ts` (the richest variant, with a response normalizer),
`unnamed/part_000` (the variant with the size cache), and
`unnamed/part_001` (the simplest variant).  This file shallowly embeds the
size cache, the response-normalization logic and the tool handlers, and
proves the frozen claims about them.

Modelling conventions:
  * JavaScript strings are Lean `String`s; all string scanning is done on
    `List Char` with structural (or fuel-based, fuel = length + 1) recursion
    so that every definition evaluates in the kernel.
  * `JSON.parse` / `JSON.stringify` are platform builtins, modelled by an
    executable parser and printer over a `Json` inductive.  Numbers are
    modelled on the integer fragment of JSON (a body whose numbers carry a
    fraction or exponent parses to `none` in the model).
  * `Date.now()` readings are explicit `Nat` parameters; each await point
    that reads the clock gets its own parameter.
  * Network and file-system effects are explicit inputs (the response the
    remote service produced, or the error the transport/file read raised).
-/

namespace ImageServiceMCP

/-! ### Character-list string utilities (JS string method models) -/

/-- Whitespace class used by JSON (`ws` in RFC 8259). -/
def isJsonWs (c : Char) : Bool :=
  c = ' ' || c = '\t' || c = '\n' || c = '\r'

/-- Whitespace class of JavaScript regular expressions (`\s`) and of
`String.prototype.trim`, restricted to the characters this code base can
meet in practice. -/
def isJsSpace (c : Char) : Bool :=
  c = ' ' || c = '\t' || c = '\n' || c = '\r' || c = '\x0b' || c = '\x0c' || c = '\xa0'

def skipWs : List Char → List Char
  | [] => []
  | c :: cs => if isJsonWs c then skipWs cs else c :: cs

/-- If `pat` is a prefix of `cs`, return the rest of `cs` after it. -/
def stripPrefixL : List Char → List Char → Option (List Char)
  | [], cs => some cs
  | _ :: _, [] => none
  | p :: ps, c :: cs => if p = c then stripPrefixL ps cs else none

/-- Split `cs` at the first occurrence of `pat`: returns the part before the
occurrence and the part after it.  `none` when `pat` does not occur.
Fuel-based; callers pass `cs.length + 1`. -/
def splitAtSub : Nat → List Char → List Char → Option (List Char × List Char)
  | 0, _, _ => none
  | fuel + 1, pat, cs =>
    match stripPrefixL pat cs with
    | some rest => some ([], rest)
    | none =>
      match cs with
      | [] => none
      | c :: cs2 => (splitAtSub fuel pat cs2).map (fun p => (c :: p.1, p.2))

/-- JS `String.prototype.includes`. -/
def strIncludes (s pat : String) : Bool :=
  (splitAtSub (s.data.length + 1) pat.data s.data).isSome

/-- Replace every occurrence of the fixed pattern `pat` by `rep`,
left-to-right and non-overlapping (JS `replace` with a global literal
pattern).  Fuel-based; callers pass the input length + 1. -/
def replaceAllL : Nat → List Char → List Char → List Char → List Char
  | 0, _, _, cs => cs
  | _ + 1, _, _, [] => []
  | fuel + 1, pat, rep, c :: cs =>
    match stripPrefixL pat (c :: cs) with
    | some rest => rep ++ replaceAllL fuel pat rep rest
    | none => c :: replaceAllL fuel pat rep cs

def jsReplaceAll (s pat rep : String) : String :=
  String.mk (replaceAllL (s.data.length + 1) pat.data rep.data s.data)

/-- Match one occurrence of the regex `<br\s*\/?>` at the head of the list,
returning the rest on success. -/
def matchBr (cs : List Char) : Option (List Char) :=
  match stripPrefixL ['<', 'b', 'r'] cs with
  | none => none
  | some rest =>
    match rest.dropWhile isJsSpace with
    | '/' :: '>' :: r => some r
    | '>' :: r => some r
    | _ => none

/-- JS `responseText.replace(/<br\s*\/?>/g, "\n")`. -/
def replaceBrL : Nat → List Char → List Char
  | 0, cs => cs
  | _ + 1, [] => []
  | fuel + 1, c :: cs =>
    match matchBr (c :: cs) with
    | some rest => '\n' :: replaceBrL fuel rest
    | none => c :: replaceBrL fuel cs

def jsReplaceBr (s : String) : String :=
  String.mk (replaceBrL (s.data.length + 1) s.data)

/-- JS `String.prototype.trim`. -/
def jsTrim (s : String) : String :=
  String.mk (((s.data.dropWhile isJsSpace).reverse.dropWhile isJsSpace).reverse)

/-- JS `String.prototype.substring(0, n)`. -/
def strTake (n : Nat) (s : String) : String :=
  String.mk (s.data.take n)

def concatStrings : List String → String
  | [] => ""
  | s :: ss => s ++ concatStrings ss

/-- JS `Array.prototype.join(sep)` on an array of strings. -/
def joinSep (sep : String) : List String → String
  | [] => ""
  | [s] => s
  | s :: t :: ts => s ++ sep ++ joinSep sep (t :: ts)

/-! ### JSON values, `JSON.parse` and `JSON.stringify` models -/

inductive Json where
  | null : Json
  | bool (b : Bool) : Json
  | num (n : Int) : Json
  | str (s : String) : Json
  | arr (elems : List Json) : Json
  | obj (fields : List (String × Json)) : Json

/-- JS plain-object key update: overwrite the existing key in place, append a
fresh key at the end (property insertion order). -/
def recordSet {α : Type} : List (String × α) → String → α → List (String × α)
  | [], k, v => [(k, v)]
  | p :: ps, k, v => if p.1 = k then (k, v) :: ps else p :: recordSet ps k v

/-- JS property read `m[k]` (`undefined` becomes `none`); records built with
`recordSet` have distinct keys, so first match is the match. -/
def recordLookup {α : Type} : List (String × α) → String → Option α
  | [], _ => none
  | p :: ps, k => if p.1 = k then some p.2 else recordLookup ps k

def recordKeys {α : Type} (m : List (String × α)) : List String :=
  m.map (fun p => p.1)

/-- Duplicate JSON object keys: `JSON.parse` keeps the last value at the
first key position, like repeated assignment on a JS object. -/
def dedupeFields (fs : List (String × Json)) : List (String × Json) :=
  fs.foldl (fun acc p => recordSet acc p.1 p.2) []

def isHexDigit (c : Char) : Bool :=
  c.isDigit || ('a' ≤ c && c ≤ 'f') || ('A' ≤ c && c ≤ 'F')

def hexVal (c : Char) : Nat :=
  if c.isDigit then c.toNat - '0'.toNat
  else if 'a' ≤ c && c ≤ 'f' then c.toNat - 'a'.toNat + 10
  else c.toNat - 'A'.toNat + 10

/-- Parse the rest of a JSON string literal after the opening quote.
Returns the decoded characters and the input after the closing quote. -/
def parseStrRest : List Char → Option (List Char × List Char)
  | [] => none
  | '\"' :: rest => some ([], rest)
  | '\\' :: e :: rest =>
    (match e with
     | '\"' => (parseStrRest rest).map (fun p => ('\"' :: p.1, p.2))
     | '\\' => (parseStrRest rest).map (fun p => ('\\' :: p.1, p.2))
     | '/' => (parseStrRest rest).map (fun p => ('/' :: p.1, p.2))
     | 'b' => (parseStrRest rest).map (fun p => ('\x08' :: p.1, p.2))
     | 'f' => (parseStrRest rest).map (fun p => ('\x0c' :: p.1, p.2))
     | 'n' => (parseStrRest rest).map (fun p => ('\n' :: p.1, p.2))
     | 'r' => (parseStrRest rest).map (fun p => ('\r' :: p.1, p.2))
     | 't' => (parseStrRest rest).map (fun p => ('\t' :: p.1, p.2))
     | 'u' =>
       (match rest with
        | h1 :: h2 :: h3 :: h4 :: rest2 =>
          if isHexDigit h1 && isHexDigit h2 && isHexDigit h3 && isHexDigit h4 then
            (parseStrRest rest2).map (fun p =>
              (Char.ofNat (((hexVal h1 * 16 + hexVal h2) * 16 + hexVal h3) * 16 + hexVal h4)
                :: p.1, p.2))
          else none
        | _ => none)
     | _ => none)
  | c :: rest =>
    if c.toNat < 32 then none
    else (parseStrRest rest).map (fun p => (c :: p.1, p.2))

def digitsToNat : Nat → List Char → Nat
  | acc, [] => acc
  | acc, c :: cs => digitsToNat (acc * 10 + (c.toNat - '0'.toNat)) cs

def takeDigits : List Char → List Char × List Char
  | [] => ([], [])
  | c :: cs =>
    if c.isDigit then
      match takeDigits cs with
      | (ds, r) => (c :: ds, r)
    else ([], c :: cs)

inductive PMode where
  | value : PMode
  | arrRest : PMode
  | objRest : PMode

inductive PAcc where
  | v : Json → PAcc
  | vs : List Json → PAcc
  | fs : List (String × Json) → PAcc

/-- Recursive-descent JSON parser (fuel-based; one unit of fuel per nesting
step, each of which consumes input, so `length + 1` always suffices). -/
def pj : Nat → PMode → List Char → Option (PAcc × List Char)
  | 0, _, _ => none
  | Nat.succ n, PMode.value, cs =>
    match skipWs cs with
    | '\x7b' :: rest =>
      (match skipWs rest with
       | '\x7d' :: rest2 => some (.v (.obj []), rest2)
       | _ =>
         match pj n .objRest rest with
         | some (.fs fs, rest2) => some (.v (.obj (dedupeFields fs)), rest2)
         | _ => none)
    | '[' :: rest =>
      (match skipWs rest with
       | ']' :: rest2 => some (.v (.arr []), rest2)
       | _ =>
         match pj n .arrRest rest with
         | some (.vs vs, rest2) => some (.v (.arr vs), rest2)
         | _ => none)
    | '\"' :: rest =>
      (match parseStrRest rest with
       | some (s, rest2) => some (.v (.str (String.mk s)), rest2)
       | none => none)
    | 't' :: 'r' :: 'u' :: 'e' :: rest => some (.v (.bool true), rest)
    | 'f' :: 'a' :: 'l' :: 's' :: 'e' :: rest => some (.v (.bool false), rest)
    | 'n' :: 'u' :: 'l' :: 'l' :: rest => some (.v .null, rest)
    | '-' :: rest =>
      (match takeDigits rest with
       | ([], _) => none
       | (ds, rest2) =>
         if ds.length > 1 ∧ ds.headD '0' = '0' then none
         else some (.v (.num (-(digitsToNat 0 ds : Int))), rest2))
    | c :: rest =>
      if c.isDigit then
        match takeDigits (c :: rest) with
        | (ds, rest2) =>
          if ds.length > 1 ∧ ds.headD '0' = '0' then none
          else some (.v (.num (digitsToNat 0 ds : Int)), rest2)
      else none
    | [] => none
  | Nat.succ n, PMode.arrRest, cs =>
    (match pj n .value cs with
     | some (.v v, rest) =>
       (match skipWs rest with
        | ',' :: rest2 =>
          (match pj n .arrRest rest2 with
           | some (.vs vs, rest3) => some (.vs (v :: vs), rest3)
           | _ => none)
        | ']' :: rest2 => some (.vs [v], rest2)
        | _ => none)
     | _ => none)
  | Nat.succ n, PMode.objRest, cs =>
    (match skipWs cs with
     | '\"' :: rest =>
       (match parseStrRest rest with
        | some (k, rest1) =>
          (match skipWs rest1 with
           | ':' :: rest2 =>
             (match pj n .value rest2 with
              | some (.v v, rest3) =>
                (match skipWs rest3 with
                 | ',' :: rest4 =>
                   (match pj n .objRest rest4 with
                    | some (.fs fs, rest5) => some (.fs ((String.mk k, v) :: fs), rest5)
                    | _ => none)
                 | '\x7d' :: rest4 => some (.fs [(String.mk k, v)], rest4)
                 | _ => none)
              | _ => none)
           | _ => none)
        | none => none)
     | _ => none)

/-- Model of `JSON.parse` (returns `none` where `JSON.parse` throws). -/
def jsonParse (s : String) : Option Json :=
  match pj (s.length + 1) .value s.data with
  | some (.v v, rest) => if skipWs rest = [] then some v else none
  | _ => none

/-- `JSON.stringify` escaping of one string character. -/
def escChar (c : Char) : List Char :=
  if c = '\"' then ['\\', '\"']
  else if c = '\\' then ['\\', '\\']
  else if c = '\n' then ['\\', 'n']
  else if c = '\r' then ['\\', 'r']
  else if c = '\t' then ['\\', 't']
  else if c = '\x08' then ['\\', 'b']
  else if c = '\x0c' then ['\\', 'f']
  else if c.toNat < 32 then
    '\\' :: 'u' :: '0' :: '0' :: [Nat.digitChar (c.toNat / 16), Nat.digitChar (c.toNat % 16)]
  else [c]

def escList : List Char → List Char
  | [] => []
  | c :: cs => escChar c ++ escList cs

def quoteStr (s : String) : String :=
  String.mk ('\"' :: escList s.data ++ ['\"'])

def spaces : Nat → String
  | 0 => ""
  | Nat.succ n => spaces n ++ " "

mutual

/-- `JSON.stringify(v, null, 2)` at nesting indentation `ind`. -/
def stringifyAt : Json → Nat → String
  | .null, _ => "null"
  | .bool b, _ => if b then "true" else "false"
  | .num n, _ => toString n
  | .str s, _ => quoteStr s
  | .arr [], _ => "[]"
  | .arr (x :: xs), ind =>
    "[\n" ++ stringifyElems (x :: xs) (ind + 2) ++ "\n" ++ spaces ind ++ "]"
  | .obj [], _ => "\x7b\x7d"
  | .obj (f :: fs), ind =>
    "\x7b\n" ++ stringifyFields (f :: fs) (ind + 2) ++ "\n" ++ spaces ind ++ "\x7d"

def stringifyElems : List Json → Nat → String
  | [], _ => ""
  | [x], ind => spaces ind ++ stringifyAt x ind
  | x :: y :: ys, ind =>
    spaces ind ++ stringifyAt x ind ++ ",\n" ++ stringifyElems (y :: ys) ind

def stringifyFields : List (String × Json) → Nat → String
  | [], _ => ""
  | [(k, v)], ind => spaces ind ++ quoteStr k ++ ": " ++ stringifyAt v ind
  | (k, v) :: f :: fs, ind =>
    spaces ind ++ quoteStr k ++ ": " ++ stringifyAt v ind ++ ",\n" ++ stringifyFields (f :: fs) ind

end

/-- Model of `JSON.stringify(v, null, 2)`. -/
def jsonStringify2 (v : Json) : String := stringifyAt v 0

mutual

/-- Model of compact `JSON.stringify(v)` (no indent argument). -/
def jsonStringifyC : Json → String
  | .null => "null"
  | .bool b => if b then "true" else "false"
  | .num n => toString n
  | .str s => quoteStr s
  | .arr [] => "[]"
  | .arr (x :: xs) => "[" ++ stringifyCElems (x :: xs) ++ "]"
  | .obj [] => "\x7b\x7d"
  | .obj (f :: fs) => "\x7b" ++ stringifyCFields (f :: fs) ++ "\x7d"

def stringifyCElems : List Json → String
  | [] => ""
  | [x] => jsonStringifyC x
  | x :: y :: ys => jsonStringifyC x ++ "," ++ stringifyCElems (y :: ys)

def stringifyCFields : List (String × Json) → String
  | [] => ""
  | [(k, v)] => quoteStr k ++ ":" ++ jsonStringifyC v
  | (k, v) :: f :: fs => quoteStr k ++ ":" ++ jsonStringifyC v ++ "," ++ stringifyCFields (f :: fs)

end

mutual

/-- JS `String(v)` conversion as used by template-literal interpolation. -/
def jsToString : Json → String
  | .null => "null"
  | .bool b => if b then "true" else "false"
  | .num n => toString n
  | .str s => s
  | .arr l => jsToStringArr l
  | .obj _ => "[object Object]"

/-- `Array.prototype.toString`: elements joined with commas, `null` rendered
as the empty string. -/
def jsToStringArr : List Json → String
  | [] => ""
  | [Json.null] => ""
  | [x] => jsToString x
  | Json.null :: y :: ys => "," ++ jsToStringArr (y :: ys)
  | x :: y :: ys => jsToString x ++ "," ++ jsToStringArr (y :: ys)

end

/-- JS truthiness of a JSON value. -/
def jsTruthy : Json → Bool
  | .null => false
  | .bool b => b
  | .num n => decide (n ≠ 0)
  | .str s => decide (s ≠ "")
  | .arr _ => true
  | .obj _ => true

/-- `typeof v === "object" && v !== null` (arrays included). -/
def isJsObject : Json → Bool
  | .obj _ => true
  | .arr _ => true
  | _ => false

/-- `Object.entries` on a parsed JSON value. -/
def jsObjEntries : Json → List (String × Json)
  | .obj fs => fs
  | .arr l => (l.enum).map (fun p => (toString p.1, p.2))
  | _ => []

/-- JS property read `v[k]` on a parsed JSON value. -/
def jsGetField (v : Json) (k : String) : Option Json :=
  recordLookup (jsObjEntries v) k

/-- `typeof v === "object" && v !== null && "error" in v`. -/
def hasErrorField (v : Json) : Bool :=
  match v with
  | .obj fs => fs.any (fun p => p.1 == "error")
  | _ => false

/-! ### Data model (interfaces of `unnamed/part_000`) -/

structure CategorySize where
  name : String
  width : Nat
  height : Nat
  mimeType : String
deriving DecidableEq, Repr

structure Category where
  name : String
  sizes : List CategorySize
deriving DecidableEq, Repr

structure ResizedFile where
  size : String
  s3Path : String
deriving DecidableEq, Repr

structure ImageMetadata where
  id : String
  category : String
  downloadedS3Path : Option String
  originalS3Path : Option String
  resizedFiles : Option (List ResizedFile)
deriving DecidableEq, Repr

/-! ### Size cache (`unnamed/part_000`, lines 103-161)

Module state: `sizeCache`, `lastUpdatedAt`, `lastAccessedAt`.  A failed
refresh is any non-2xx status, transport error, or body-parse error inside
`getCategories`; all three reach the `return null` paths without touching
the state, so they are modelled uniformly as a `none` response. -/

/-- The record `localSizeCache` built by `getCategories`. -/
abbrev SizeMap := List (String × CategorySize)

structure CacheState where
  sizeCache : Option SizeMap
  lastUpdatedAt : Option Nat
  lastAccessedAt : Option Nat
deriving DecidableEq, Repr

def CacheState.initial : CacheState := ⟨none, none, none⟩

/-- `localSizeCache[size.name] = size`. -/
def sizeInsert (m : SizeMap) (sz : CategorySize) : SizeMap :=
  recordSet m sz.name sz

/-- The cache rebuild loop of `getCategories`:
`if (category && category.name && Array.isArray(category.sizes))` skips
categories with a falsy (empty) name, then `localSizeCache[size.name] = size`
for each size. -/
def buildSizeCache (cats : List Category) : SizeMap :=
  cats.foldl
    (fun m c => if c.name = "" then m else c.sizes.foldl sizeInsert m)
    []

/-- The sizes `getCategories` actually iterates over, flattened in iteration
order: all sizes of the categories whose name is non-empty (truthy). -/
def validSizes (cats : List Category) : List CategorySize :=
  ((cats.filter (fun c => !(c.name == ""))).map (fun c => c.sizes)).flatten

/-- `getCategories` (part_000 lines 104-135): on a successful fetch+parse it
rebuilds `sizeCache` wholesale, stamps `lastUpdatedAt = Date.now()` and
returns the parsed categories; on any failure it returns `null` and leaves
the state untouched (the failure is only logged). -/
def getCategories (resp : Option (List Category)) (tUpd : Nat) (s : CacheState) :
    CacheState × Option (List Category) :=
  match resp with
  | none => (s, none)
  | some cats =>
    ({ s with sizeCache := some (buildSizeCache cats), lastUpdatedAt := some tUpd }, some cats)

def fiveMinutesInMs : Nat := 5 * 60 * 1000

/-- The staleness test of `getSizeCache` (part_000 lines 150-154):
`!sizeCache || !lastAccessedAt || now - lastAccessedAt > fiveMinutesInMs`.
Nat subtraction truncates at zero, which agrees with the JS comparison
(a negative difference is never `> fiveMinutesInMs`). -/
def refreshCondition (s : CacheState) (tNow : Nat) : Bool :=
  match s.sizeCache, s.lastAccessedAt with
  | none, _ => true
  | some _, none => true
  | some _, some la => decide (tNow - la > fiveMinutesInMs)

structure GetOutcome where
  state : CacheState
  returned : Option SizeMap
  refreshed : Bool
deriving DecidableEq, Repr

/-- `getSizeCache` (part_000 lines 143-161).  `tCheck` is the `Date.now()`
read used for the staleness test, `tUpd` the one taken inside a successful
refresh, `tAcc` the one written to `lastAccessedAt` at the end; `resp` is
the category-list response a refresh attempt would observe.  `refreshed`
records whether `getCategories` (a network refresh) was invoked. -/
def getSizeCache (tCheck tUpd tAcc : Nat) (resp : Option (List Category)) (s : CacheState) :
    GetOutcome :=
  let r := refreshCondition s tCheck
  let s1 := if r then (getCategories resp tUpd s).1 else s
  { state := { s1 with lastAccessedAt := some tAcc }
    returned := s1.sizeCache
    refreshed := r }

structure GetCall where
  tCheck : Nat
  tUpd : Nat
  tAcc : Nat
  resp : Option (List Category)

/-- Run a sequence of `getSizeCache` calls, counting network refreshes. -/
def runGets : CacheState → List GetCall → CacheState × Nat
  | s, [] => (s, 0)
  | s, c :: cs =>
    let o := getSizeCache c.tCheck c.tUpd c.tAcc c.resp s
    let rest := runGets o.state cs
    (rest.1, (if o.refreshed then 1 else 0) + rest.2)

/-- Each call's staleness-test clock reading lies within five minutes of the
previous call's access stamp. -/
def withinFiveOfPrev : Nat → List GetCall → Bool
  | _, [] => true
  | prev, c :: cs => decide (c.tCheck - prev ≤ fiveMinutesInMs) && withinFiveOfPrev c.tAcc cs

/-! ### Tool results -/

structure ContentBlock where
  type : String
  text : String
deriving DecidableEq, Repr

structure ToolResult where
  content : List ContentBlock
  isError : Bool
deriving DecidableEq, Repr

def okResult (t : String) : ToolResult := ⟨[⟨"text", t⟩], false⟩

/-- The uniform catch block of every handler:
`text: "Error: " + error.message, isError: true`. -/
def errResult (m : String) : ToolResult := ⟨[⟨"text", "Error: " ++ m⟩], true⟩

/-! ### Response normalization (`src/index.ts`, error branch of each handler) -/

def statusOk (status : Nat) : Bool := 200 ≤ status && status ≤ 299

/-- The lazy regex search `responseText.match(/<pre>(.*?)<\/pre>/s)`:
first `<pre>`, then the nearest following `</pre>`. -/
def extractPre (body : String) : Option String :=
  match splitAtSub (body.data.length + 1) ['<', 'p', 'r', 'e', '>'] body.data with
  | none => none
  | some p =>
    match splitAtSub (p.2.length + 1) ['<', '/', 'p', 'r', 'e', '>'] p.2 with
    | none => none
    | some q => some (String.mk q.1)

/-- The `<pre>` content clean-up: `<br>` tags to newlines, `&nbsp;` and
`&#39;` decoded, then trimmed. -/
def htmlPreDecode (inner : String) : String :=
  jsTrim (jsReplaceAll (jsReplaceAll (jsReplaceBr inner) "&nbsp;" " ") "&#39;" "\x27")

/-- The `errorMessage` computed for a failed response (`src/index.ts`
lines 78-128, repeated verbatim in every handler of that variant):
JSON branch first, then HTML, then the raw text default. -/
def normalizeFailureMessage (status : Nat) (contentType body : String) : String :=
  if strIncludes contentType "application/json" then
    match jsonParse body with
    | some v => if hasErrorField v then jsonStringify2 v else body
    | none => body
  else if strIncludes contentType "text/html" then
    match extractPre body with
    | some inner => "Server error: " ++ htmlPreDecode inner
    | none => "Server returned HTML error page (" ++ toString status ++ ")"
  else body

/-! ### `get_image_metadata` handler, `src/index.ts` variant (lines 62-228) -/

/-- What the handler can observe of one `fetch`: a transport rejection
(with the error message the catch stringifies) or a settled response. -/
inductive HttpOutcome where
  | netErr (msg : String) : HttpOutcome
  | resp (status : Nat) (contentType : String) (body : String) : HttpOutcome

def metadataKnownKeys : List String :=
  ["id", "category", "downloadedS3Path", "originalFileUrl"]

def truthyField (data : Json) (k : String) : Option Json :=
  match jsGetField data k with
  | some v => if jsTruthy v then some v else none
  | none => none

/-- Success-path markdown of `get_image_metadata` (`src/index.ts`
lines 147-202), for `data` with `typeof data === "object" && data !== null`. -/
def idxMetadataText (data : Json) : String :=
  "## Image Metadata\n\n" ++
  (match truthyField data "id" with
   | some v => "**Image ID:** " ++ jsToString v ++ "\n\n"
   | none => "") ++
  (match truthyField data "category" with
   | some v => "**Category:** " ++ jsToString v ++ "\n\n"
   | none => "") ++
  (match truthyField data "downloadedS3Path" with
   | some v => "**S3 Path:** " ++ jsToString v ++ "\n\n"
   | none => "") ++
  (match truthyField data "originalFileUrl" with
   | some v =>
     "**Original Image URL:** " ++ jsToString v ++ "\n\n" ++
     "> This is a signed URL that can be used to access the original image. " ++
     "The URL includes authentication parameters and may expire.\n\n"
   | none => "") ++
  (let additional :=
    ((jsObjEntries data).filter (fun p => !(metadataKnownKeys.contains p.1))).map
      (fun p => "- **" ++ p.1 ++ ":** " ++ jsonStringifyC p.2)
   if additional = [] then ""
   else "**Additional Information:**\n" ++ joinSep "\n" additional ++ "\n\n") ++
  "---\n\n**Raw JSON Response:**\n```json\n" ++ jsonStringify2 data ++ "\n```"

/-- `get_image_metadata` of `src/index.ts`, as a function of the fetch
outcome.  The try/catch guarantees a result object on every path; thrown
errors become the `errResult` shape. -/
def idxGetImageMetadata (o : HttpOutcome) : ToolResult :=
  match o with
  | .netErr m => errResult m
  | .resp status ct body =>
    if statusOk status then
      match jsonParse body with
      | none => errResult ("Invalid JSON response: " ++ strTake 200 body)
      | some data =>
        if isJsObject data then okResult (idxMetadataText data)
        else okResult (jsonStringify2 data)
    else
      errResult ("Failed to get image metadata: " ++ toString status ++ " " ++
        normalizeFailureMessage status ct body)

/-- Whether the `src/index.ts` `get_image_metadata` invocation ends in its
catch block. -/
def idxIsFailure (o : HttpOutcome) : Bool :=
  match o with
  | .netErr _ => true
  | .resp status _ body => !statusOk status || (jsonParse body).isNone

/-! ### `get_image_metadata` handlers of the other two variants -/

/-- Observable outcome of fetch-then-typed-parse, as the part_000/part_001
handlers see it: `parseErr` carries the engine's `SyntaxError` message from
`response.json()`. -/
inductive FetchOutcome (α : Type) where
  | netErr (msg : String) : FetchOutcome α
  | httpErr (status : Nat) (bodyText : String) : FetchOutcome α
  | parseErr (msg : String) : FetchOutcome α
  | ok (value : α) : FetchOutcome α

def FetchOutcome.isFailure {α : Type} : FetchOutcome α → Bool
  | .ok _ => false
  | _ => true

/-- One size line of `buildImageMetadataResponseText` (part_000
lines 179-187): dimensions when the size cache knows the name. -/
def p0SizeLine (cache : Option SizeMap) (f : ResizedFile) : String :=
  match (cache.bind (fun m => recordLookup m f.size)) with
  | some info =>
    "- **" ++ f.size ++ "**: " ++ toString info.width ++ "×" ++ toString info.height ++
    " pixels\n"
  | none => "- **" ++ f.size ++ "**\n"

/-- `buildImageMetadataResponseText` (part_000 lines 163-194).  The size
cache is consulted (through `getSizeCache`, with its side effects) only when
`resizedFiles` is a non-empty array. -/
def buildImageMetadataResponseText (md : ImageMetadata) (label : String)
    (tCheck tUpd tAcc : Nat) (resp : Option (List Category)) (s : CacheState) :
    String × CacheState :=
  let base := "## " ++ label ++ "\n\n**Image ID:** " ++ md.id ++
    "\n\n**Category:** " ++ md.category ++ "\n\n"
  match md.resizedFiles with
  | some (f :: fs) =>
    let o := getSizeCache tCheck tUpd tAcc resp s
    (base ++ "**Available Sizes:**\n\n" ++
      concatStrings (((f :: fs).map (p0SizeLine o.returned))) ++ "\n", o.state)
  | _ => (base ++ "*Note: No resized files available for this image.*\n\n", s)

/-- `get_image_metadata` of `unnamed/part_000` (lines 196-246). -/
def p0GetImageMetadata (o : FetchOutcome ImageMetadata)
    (tCheck tUpd tAcc : Nat) (resp : Option (List Category)) (s : CacheState) :
    ToolResult × CacheState :=
  match o with
  | .netErr m => (errResult m, s)
  | .httpErr status bodyText =>
    (errResult ("Failed to get image metadata: " ++ toString status ++ " " ++ bodyText), s)
  | .parseErr m => (errResult m, s)
  | .ok md =>
    let r := buildImageMetadataResponseText md "Image Metadata" tCheck tUpd tAcc resp s
    (okResult r.1, r.2)

/-- `get_image_metadata` of `unnamed/part_001` (lines 54-95): raw
pretty-printed JSON on success. -/
def p1GetImageMetadata (o : FetchOutcome Json) : ToolResult :=
  match o with
  | .netErr m => errResult m
  | .httpErr status bodyText =>
    errResult ("Failed to get image metadata: " ++ toString status ++ " " ++ bodyText)
  | .parseErr m => errResult m
  | .ok data => okResult (jsonStringify2 data)

/-! ### Upload tools (all three variants build the same request) -/

structure ApiRequest where
  method : String
  path : String
deriving DecidableEq, Repr

/-- The request of `uploadImage` (part_000 lines 517-524) and of the inlined
upload handlers (`src/index.ts` lines 607-614 and 744-751, part_001
lines 176-183 and 241-248): `${resize}` interpolates the boolean literal. -/
def uploadRequest (category : String) (resize : Bool) : ApiRequest :=
  ⟨"POST", "/api/image/" ++ category ++ "?forceImmediateResize=" ++
    (if resize then "true" else "false")⟩

inductive UploadTool where
  | uploadImage : UploadTool
  | uploadAndResizeImage : UploadTool
deriving DecidableEq, Repr

/-- Which boolean each registered tool passes: `upload_and_resize_image`
hard-codes `true`, `upload_image` hard-codes `false`. -/
def uploadToolResize : UploadTool → Bool
  | .uploadImage => false
  | .uploadAndResizeImage => true

def uploadToolRequest (t : UploadTool) (category : String) : ApiRequest :=
  uploadRequest category (uploadToolResize t)

/-- Observable outcome of an upload attempt in `src/index.ts`: the local
`readFile` can reject before any network activity. -/
inductive UploadOutcome where
  | fileErr (msg : String) : UploadOutcome
  | netErr (msg : String) : UploadOutcome
  | resp (status : Nat) (contentType : String) (body : String) : UploadOutcome

/-- Upload handlers of `src/index.ts` (lines 588-711 and 725-848); both
share this shape, differing only in the `forceImmediateResize` literal of
the request they send (captured by `uploadToolRequest`). -/
def idxUploadHandler (o : UploadOutcome) : ToolResult :=
  match o with
  | .fileErr m => errResult m
  | .netErr m => errResult m
  | .resp status ct body =>
    if statusOk status then
      match jsonParse body with
      | none => errResult ("Invalid JSON response: " ++ strTake 200 body)
      | some data => okResult (jsonStringify2 data)
    else
      errResult ("Failed to upload image: " ++ toString status ++ " " ++
        normalizeFailureMessage status ct body)

/-! ### `list_categories` formatting, both variants -/

/-- One size line of the `src/index.ts` `list_categories` formatter
(lines 333-343), on a raw JSON size entry; non-object entries contribute
nothing. -/
def idxSizeLine (sz : Json) : String :=
  if isJsObject sz then
    "- **" ++
    (match truthyField sz "name" with | some v => jsToString v | none => "Unknown") ++
    "**: " ++
    (match truthyField sz "width" with | some v => jsToString v | none => "?") ++
    "×" ++
    (match truthyField sz "height" with | some v => jsToString v | none => "?") ++
    " pixels (" ++
    (match truthyField sz "mimeType" with | some v => jsToString v | none => "Unknown") ++
    ")\n"
  else ""

/-- One category section of the `src/index.ts` `list_categories` formatter
(lines 324-349). -/
def idxCategorySection (cat : Json) : String :=
  if isJsObject cat then
    "### " ++
    (match truthyField cat "name" with | some v => jsToString v | none => "Unknown") ++
    "\n\n" ++
    (match jsGetField cat "sizes" with
     | some (.arr (s :: ss)) =>
       "**Available Sizes:**\n\n" ++ concatStrings (((s :: ss).map idxSizeLine)) ++ "\n"
     | _ => "No sizes configured for this category.\n\n")
  else ""

/-- The full success text of `list_categories` in `src/index.ts`
(lines 314-365): header, every category section in order, raw JSON tail.
Non-array data falls through to plain pretty-printed JSON. -/
def idxListCategoriesText (data : Json) : String :=
  match data with
  | .arr l =>
    "## Available Image Categories\n\n" ++
    (if l.isEmpty then "No categories are currently available.\n\n"
     else
       "Found " ++ toString l.length ++ " categor" ++
       (if l.length = 1 then "y" else "ies") ++ ":\n\n" ++
       concatStrings (l.map idxCategorySection)) ++
    "---\n\n**Raw JSON Response:**\n```json\n" ++ jsonStringify2 data ++ "\n```"
  | _ => jsonStringify2 data

/-- One size line of the part_000 `list_categories` formatter
(lines 361-366), on typed categories. -/
def p0CatSizeLine (sz : CategorySize) : String :=
  "- **" ++ (if sz.name = "" then "Unknown" else sz.name) ++ "**: " ++
  (if sz.width = 0 then "?" else toString sz.width) ++ "×" ++
  (if sz.height = 0 then "?" else toString sz.height) ++ " pixels (" ++
  (if sz.mimeType = "" then "Unknown" else sz.mimeType) ++ ")\n"

/-- One category section of the part_000 `list_categories` formatter
(lines 354-371). -/
def p0CategorySection (c : Category) : String :=
  "### " ++ (if c.name = "" then "Unknown" else c.name) ++ "\n\n" ++
  (match c.sizes with
   | [] => "No sizes configured for this category.\n\n"
   | s :: ss => "**Available Sizes:**\n\n" ++ concatStrings ((s :: ss).map p0CatSizeLine) ++ "\n")

/-- The text `list_categories` of `unnamed/part_000` actually returns
(lines 350-382).  The source's `return` statement sits INSIDE the
`for (const category of categories)` loop, so the returned text holds the
header plus the first category's section only; with an empty list the loop
never runs and the handler falls through, returning `undefined` (`none`). -/
def p0ListCategoriesText (cats : List Category) : Option String :=
  match cats with
  | [] => none
  | c :: _ =>
    some ("Found " ++ toString cats.length ++ " categor" ++
      (if cats.length = 1 then "y" else "ies") ++ ":\n\n" ++ p0CategorySection c)

/-! ### The remaining tool handlers (full coverage of all three variants) -/

/-- JS `String.prototype.startsWith`. -/
def strStartsWith (s pat : String) : Bool :=
  (stripPrefixL pat.data s.data).isSome

/-- Whether the `src/index.ts` upload invocation ends in its catch block. -/
def UploadOutcome.isFailure : UploadOutcome → Bool
  | .fileErr _ => true
  | .netErr _ => true
  | .resp status _ body => !statusOk status || (jsonParse body).isNone

/-- `list_categories` of `src/index.ts` (lines 230-391): the same
fetch/normalize shell as `get_image_metadata` with error prefix
"Failed to list categories: ", success text `idxListCategoriesText`. -/
def idxListCategories (o : HttpOutcome) : ToolResult :=
  match o with
  | .netErr m => errResult m
  | .resp status ct body =>
    if statusOk status then
      match jsonParse body with
      | none => errResult ("Invalid JSON response: " ++ strTake 200 body)
      | some data => okResult (idxListCategoriesText data)
    else
      errResult ("Failed to list categories: " ++ toString status ++ " " ++
        normalizeFailureMessage status ct body)

/-- The url extraction of `get_resized_image` in `src/index.ts`
(lines 490-493): non-null only when the `url` property exists and is a
string. -/
def idxResizedUrl (data : Json) : Option String :=
  match jsGetField data "url" with
  | some (.str u) => some u
  | _ => none

/-- Success markdown of `get_resized_image` (`src/index.ts` lines 497-529)
for a truthy extracted url. -/
def idxResizedImageText (uuid size url : String) (data : Json) : String :=
  "## Resized Image URL\n\n" ++
  "**Image UUID:** " ++ uuid ++ "\n\n" ++
  "**Requested Size:** " ++ size ++ "\n\n" ++
  "**Download URL:** " ++ url ++ "\n\n" ++
  "> This is a signed URL that can be used to download the image at the requested size. " ++
  "The URL includes authentication parameters and may expire.\n\n" ++
  (let additional := ((jsObjEntries data).filter (fun p => !(p.1 == "url"))).map
      (fun p => "- **" ++ p.1 ++ ":** " ++ jsonStringifyC p.2)
   if additional = [] then ""
   else "**Additional Information:**\n" ++ joinSep "\n" additional ++ "\n\n") ++
  "---\n\n**Raw JSON Response:**\n```json\n" ++ jsonStringify2 data ++ "\n```"

/-- The no-url warning of `get_resized_image` (`src/index.ts`
lines 532-547). -/
def idxResizedWarningText (uuid size : String) (data : Json) : String :=
  "## Resized Image URL\n\n**Warning:** No URL found in the response.\n\n" ++
  "**Image UUID:** " ++ uuid ++ "\n**Requested Size:** " ++ size ++
  "\n\n**Response Data:**\n```json\n" ++ jsonStringify2 data ++ "\n```"

/-- The success-path body of `get_resized_image` (`src/index.ts`
lines 487-559): object with truthy string url renders the markdown, object
with falsy/non-string/absent url renders the warning, non-objects fall
through to pretty-printed JSON. -/
def idxResizedSuccessBody (uuid size : String) (data : Json) : String :=
  if isJsObject data then
    match idxResizedUrl data with
    | some u =>
      if u = "" then idxResizedWarningText uuid size data
      else idxResizedImageText uuid size u data
    | none => idxResizedWarningText uuid size data
  else jsonStringify2 data

/-- `get_resized_image` of `src/index.ts` (lines 393-575). -/
def idxGetResizedImage (uuid size : String) (o : HttpOutcome) : ToolResult :=
  match o with
  | .netErr m => errResult m
  | .resp status ct body =>
    if statusOk status then
      match jsonParse body with
      | none => errResult ("Invalid JSON response: " ++ strTake 200 body)
      | some data => okResult (idxResizedSuccessBody uuid size data)
    else
      errResult ("Failed to get resized image URL: " ++ toString status ++ " " ++
        normalizeFailureMessage status ct body)

/-- `transcode_image` of `unnamed/part_000` (lines 248-326): the inlined
success formatting (lines 277-301) is byte-identical to
`buildImageMetadataResponseText` with the heading
"Image Transcode Result". -/
def p0TranscodeImage (o : FetchOutcome ImageMetadata)
    (tc tu ta : Nat) (resp : Option (List Category)) (s : CacheState) :
    ToolResult × CacheState :=
  match o with
  | .netErr m => (errResult m, s)
  | .httpErr status bodyText =>
    (errResult ("Failed to transcode image: " ++ toString status ++ " " ++ bodyText), s)
  | .parseErr m => (errResult m, s)
  | .ok md =>
    let r := buildImageMetadataResponseText md "Image Transcode Result" tc tu ta resp s
    (okResult r.1, r.2)

/-- `list_categories` of `unnamed/part_000` (lines 328-398), as a function
of the category-list fetch outcome `resp` (`none` for any transport, status
or parse failure — all swallowed inside `getCategories`, which then returns
null) and the cache state it mutates.  On `null` the handler returns a
plain UN-flagged "No categories are currently available." block; otherwise
`p0ListCategoriesText` (whose `none` is the fall-through `undefined` of the
empty-list case). -/
def p0ListCategories (resp : Option (List Category)) (tUpd : Nat) (s : CacheState) :
    Option ToolResult × CacheState :=
  let g := getCategories resp tUpd s
  match g.2 with
  | none => (some ⟨[⟨"text", "No categories are currently available."⟩], false⟩, g.1)
  | some cats => ((p0ListCategoriesText cats).map okResult, g.1)

/-- The success-path body of `get_resized_image` in `unnamed/part_000`
(lines 431-480): the guard `if (parsedResponse && parsedResponse.url)`
needs a truthy parsed value with a truthy `url` property (the inner no-url
warning branch is dead code: its condition repeats the outer one), anything
else falls through to pretty-printed JSON. -/
def p0ResizedSuccessBody (imageServiceId size : String) (data : Json) : String :=
  if jsTruthy data then
    match truthyField data "url" with
    | some v =>
      "## Resized Image URL\n\n" ++
      "**Image UUID:** " ++ imageServiceId ++ "\n\n" ++
      "**Requested Size:** " ++ size ++ "\n\n" ++
      "**Download URL:** " ++ jsToString v ++ "\n\n" ++
      "> This is a signed URL that can be used to download the image at the requested size. " ++
      "The URL includes authentication parameters and may expire.\n\n"
    | none => jsonStringify2 data
  else jsonStringify2 data

/-- `get_resized_image` of `unnamed/part_000` (lines 400-496). -/
def p0GetResizedImage (imageServiceId size : String) (o : FetchOutcome Json) : ToolResult :=
  match o with
  | .netErr m => errResult m
  | .httpErr status bodyText =>
    errResult ("Failed to get resized image URL: " ++ toString status ++ " " ++ bodyText)
  | .parseErr m => errResult m
  | .ok data => okResult (p0ResizedSuccessBody imageServiceId size data)

/-- Observable outcome of a part_000 upload attempt through `uploadImage`
(lines 499-545): local read failure, transport failure, non-2xx, parse
failure, or the typed metadata. -/
inductive UploadFetchOutcome where
  | fileErr (msg : String) : UploadFetchOutcome
  | netErr (msg : String) : UploadFetchOutcome
  | httpErr (status : Nat) (bodyText : String) : UploadFetchOutcome
  | parseErr (msg : String) : UploadFetchOutcome
  | ok (md : ImageMetadata) : UploadFetchOutcome

/-- Whether a part_000 upload invocation ends in its catch block: every
non-`ok` outcome, plus `ok` metadata failing the
`!imageMetadata.id || !imageMetadata.category` format check. -/
def UploadFetchOutcome.isFailure : UploadFetchOutcome → Bool
  | .ok md => (md.id == "") || (md.category == "")
  | _ => true

/-- The typed metadata rendered back to JSON for the invalid-format message
(`JSON.stringify(imageMetadata)`): absent optional fields are omitted,
field order as in the interface declaration. -/
def imageMetadataToJson (md : ImageMetadata) : Json :=
  .obj ([("id", Json.str md.id), ("category", Json.str md.category)] ++
    (match md.downloadedS3Path with
     | some p => [("downloadedS3Path", Json.str p)]
     | none => []) ++
    (match md.originalS3Path with
     | some p => [("originalS3Path", Json.str p)]
     | none => []) ++
    (match md.resizedFiles with
     | some fs => [("resizedFiles", Json.arr (fs.map (fun f =>
         Json.obj [("size", Json.str f.size), ("s3Path", Json.str f.s3Path)])))]
     | none => []))

/-- The two upload tools of `unnamed/part_000` (lines 547-639), through the
shared `uploadImage`: every throw (file read, transport, non-2xx, parse,
invalid response format) is caught into the error shape; on success the
shared metadata markdown is built, with the size-cache side effects.
`label` is "Image uploaded and resized" or "Image uploaded". -/
def p0UploadHandler (label : String) (o : UploadFetchOutcome)
    (tc tu ta : Nat) (resp : Option (List Category)) (s : CacheState) :
    ToolResult × CacheState :=
  match o with
  | .fileErr m => (errResult m, s)
  | .netErr m => (errResult m, s)
  | .httpErr status bodyText =>
    (errResult ("Failed to upload image: " ++ toString status ++ " " ++ bodyText), s)
  | .parseErr m => (errResult m, s)
  | .ok md =>
    if md.id = "" ∨ md.category = "" then
      (errResult ("Invalid response format: missing required fields. Response: " ++
        jsonStringifyC (imageMetadataToJson md)), s)
    else
      let r := buildImageMetadataResponseText md label tc tu ta resp s
      (okResult r.1, r.2)

/-- `get_resized_image` of `unnamed/part_001` (lines 97-150): success text
is `url || JSON.stringify(data, null, 2)` where `url` is the `url` property
of an object response (no string check in this variant), so a truthy
property value is rendered and anything else falls back to pretty-printed
JSON. -/
def p1GetResizedImage (o : FetchOutcome Json) : ToolResult :=
  match o with
  | .netErr m => errResult m
  | .httpErr status bodyText =>
    errResult ("Failed to get resized image URL: " ++ toString status ++ " " ++ bodyText)
  | .parseErr m => errResult m
  | .ok data =>
    okResult
      (match truthyField data "url" with
       | some v => jsToString v
       | none => jsonStringify2 data)

/-- Observable outcome of a part_001 upload attempt. -/
inductive UploadJsonOutcome where
  | fileErr (msg : String) : UploadJsonOutcome
  | netErr (msg : String) : UploadJsonOutcome
  | httpErr (status : Nat) (bodyText : String) : UploadJsonOutcome
  | parseErr (msg : String) : UploadJsonOutcome
  | ok (data : Json) : UploadJsonOutcome

def UploadJsonOutcome.isFailure : UploadJsonOutcome → Bool
  | .ok _ => false
  | _ => true

/-- The two upload tools of `unnamed/part_001` (lines 152-280): identical
result shape for both, success is pretty-printed JSON. -/
def p1UploadHandler (o : UploadJsonOutcome) : ToolResult :=
  match o with
  | .fileErr m => errResult m
  | .netErr m => errResult m
  | .httpErr status bodyText =>
    errResult ("Failed to upload image: " ++ toString status ++ " " ++ bodyText)
  | .parseErr m => errResult m
  | .ok data => okResult (jsonStringify2 data)

/-! ### Definitions taken from the claims' wording (for refinement checks) -/

/-- Modelled from claim C1's words, not from the code: a refresh should be
attempted if and only if the cache has never been successfully populated, or
more than five minutes have elapsed since the last access (no last access
means that disjunct is simply not satisfied). -/
def claimedRefreshCondition (s : CacheState) (t : Nat) : Bool :=
  s.sizeCache.isNone ||
    (match s.lastAccessedAt with
     | some la => decide (t - la > fiveMinutesInMs)
     | none => false)

/-! ### Concrete demonstration inputs -/

def demoSize : CategorySize := ⟨"thumb", 100, 100, "image/png"⟩

def demoCats : List Category := [⟨"profile", [demoSize]⟩]

def demoCats2 : List Category :=
  [⟨"avatars", [⟨"thumb", 64, 64, "image/png"⟩]⟩,
   ⟨"banners", [⟨"wide", 800, 200, "image/jpeg"⟩]⟩]

def demoCats2Json : Json :=
  .arr [.obj [("name", .str "avatars"),
              ("sizes", .arr [.obj [("name", .str "thumb"), ("width", .num 64),
                                    ("height", .num 64), ("mimeType", .str "image/png")]])],
        .obj [("name", .str "banners"),
              ("sizes", .arr [.obj [("name", .str "wide"), ("width", .num 800),
                                    ("height", .num 200), ("mimeType", .str "image/jpeg")]])]]

/-! ### Helper lemmas about the record operations -/

theorem recordLookup_recordSet {α : Type} (m : List (String × α)) (k k2 : String) (v : α) :
    recordLookup (recordSet m k v) k2 = if k = k2 then some v else recordLookup m k2 := by
  induction m with
  | nil => simp [recordSet, recordLookup]
  | cons p ps ih =>
    by_cases h1 : p.1 = k
    · by_cases h2 : k = k2
      · simp [recordSet, recordLookup, h1, h2]
      · have h3 : ¬ p.1 = k2 := by rw [h1]; exact h2
        simp [recordSet, recordLookup, h1, h2, h3]
    · by_cases h3 : p.1 = k2
      · have h2 : ¬ k = k2 := fun hh => h1 (h3.trans hh.symm)
        have h4 : ¬ k2 = k := fun hh => h2 hh.symm
        simp [recordSet, recordLookup, h1, h2, h3, h4]
      · simp [recordSet, recordLookup, h1, h3, ih]

theorem recordLookup_foldl_sizeInsert (l : List CategorySize) (init : SizeMap) (k : String) :
    recordLookup (l.foldl sizeInsert init) k =
      ((l.reverse.find? (fun sz => sz.name == k)).or (recordLookup init k)) := by
  induction l generalizing init with
  | nil => simp
  | cons sz rest ih =>
    rw [List.foldl_cons, ih, List.reverse_cons, List.find?_append, Option.or_assoc]
    congr 1
    rw [show sizeInsert init sz = recordSet init sz.name sz from rfl, recordLookup_recordSet]
    by_cases h : sz.name = k
    · have hb : (sz.name == k) = true := by simp [h]
      simp [List.find?, hb, h]
    · have hb : (sz.name == k) = false := by simp [h]
      simp [List.find?, hb, h]

theorem buildSizeCacheFrom_eq (cats : List Category) :
    ∀ init : SizeMap,
      cats.foldl (fun m c => if c.name = "" then m else c.sizes.foldl sizeInsert m) init =
        (validSizes cats).foldl sizeInsert init := by
  induction cats with
  | nil => intro init; simp [validSizes]
  | cons c rest ih =>
    intro init
    rw [List.foldl_cons]
    by_cases h : c.name = ""
    · rw [if_pos h, ih init]
      unfold validSizes
      have hb : (!(c.name == "")) = false := by simp [h]
      rw [List.filter_cons, hb]
      simp
    · rw [if_neg h, ih (c.sizes.foldl sizeInsert init)]
      unfold validSizes
      have hb : (!(c.name == "")) = true := by simp [h]
      rw [List.filter_cons, hb]
      simp [List.foldl_append]

theorem buildSizeCache_eq_foldl_validSizes (cats : List Category) :
    buildSizeCache cats = (validSizes cats).foldl sizeInsert [] :=
  buildSizeCacheFrom_eq cats []

theorem recordKeys_recordSet {α : Type} (m : List (String × α)) (k : String) (v : α) :
    recordKeys (recordSet m k v) =
      if k ∈ recordKeys m then recordKeys m else recordKeys m ++ [k] := by
  induction m with
  | nil => simp [recordSet, recordKeys]
  | cons p ps ih =>
    by_cases h : p.1 = k
    · simp [recordSet, h, recordKeys]
    · have h2 : ¬ k = p.1 := fun hh => h hh.symm
      by_cases h3 : k ∈ recordKeys ps
      · have hmem : k ∈ recordKeys (p :: ps) := by
          show k ∈ p.1 :: recordKeys ps
          exact List.mem_cons_of_mem _ h3
        rw [if_pos hmem]
        have hkeys : recordKeys (recordSet (p :: ps) k v) =
            p.1 :: recordKeys (recordSet ps k v) := by
          simp [recordSet, h, recordKeys]
        rw [hkeys, ih, if_pos h3]
        rfl
      · have hmem : ¬ k ∈ recordKeys (p :: ps) := by
          intro hc
          rcases List.mem_cons.mp hc with h4 | h4
          · exact h2 h4
          · exact h3 h4
        rw [if_neg hmem]
        have hkeys : recordKeys (recordSet (p :: ps) k v) =
            p.1 :: recordKeys (recordSet ps k v) := by
          simp [recordSet, h, recordKeys]
        rw [hkeys, ih, if_neg h3]
        rfl

theorem nodup_recordKeys_recordSet {α : Type} (m : List (String × α)) (k : String) (v : α)
    (h : (recordKeys m).Nodup) : (recordKeys (recordSet m k v)).Nodup := by
  rw [recordKeys_recordSet]
  by_cases hk : k ∈ recordKeys m
  · simpa [hk] using h
  · simp [hk, List.nodup_append, h]

theorem nodup_recordKeys_foldl_sizeInsert (l : List CategorySize) (init : SizeMap)
    (h : (recordKeys init).Nodup) : (recordKeys (l.foldl sizeInsert init)).Nodup := by
  induction l generalizing init with
  | nil => simpa using h
  | cons sz rest ih =>
    simpa [List.foldl_cons] using ih _ (nodup_recordKeys_recordSet _ _ _ h)

theorem refreshCondition_eq_false (st : CacheState) (t : Nat) (m : SizeMap) (la : Nat)
    (hm : st.sizeCache = some m) (hla : st.lastAccessedAt = some la)
    (hle : t - la ≤ fiveMinutesInMs) : refreshCondition st t = false := by
  rcases st with ⟨sc, lu, lacc⟩
  simp only at hm hla
  subst hm
  subst hla
  simp only [refreshCondition, gt_iff_lt, decide_eq_false_iff_not]
  exact Nat.not_lt.mpr hle

theorem stripPrefixL_append (l r : List Char) : stripPrefixL l (l ++ r) = some r := by
  induction l with
  | nil => rfl
  | cons c cs ih => simp [stripPrefixL, ih]

/-! ### Claim theorems -/

/-- Claim C1 is false as stated, at two concrete, reachable inputs.
First: the `list_categories` tool calls `getCategories` directly (part_000
line 339), which populates `sizeCache` without touching `lastAccessedAt`;
a `getSizeCache` call one second later attempts a network refresh even
though the cache was just successfully populated and no five-minute window
has passed — `claimedRefreshCondition` (the claim's own iff) is false there.
Second: two `getSizeCache` calls one second apart whose refreshes both fail
attempt two network refreshes, not at most one. -/
theorem c1_counterexample :
    ((getCategories (some demoCats) 0 CacheState.initial).1.sizeCache.isSome = true ∧
     (getCategories (some demoCats) 0 CacheState.initial).1.lastAccessedAt = none ∧
     claimedRefreshCondition (getCategories (some demoCats) 0 CacheState.initial).1 1000 = false ∧
     (getSizeCache 1000 1000 1000 none
        (getCategories (some demoCats) 0 CacheState.initial).1).refreshed = true) ∧
    ((getSizeCache 0 0 0 none CacheState.initial).refreshed = true ∧
     (getSizeCache 1000 1000 1000 none
        (getSizeCache 0 0 0 none CacheState.initial).state).refreshed = true) := by
  decide

/-- Claim C1 (amended): a `getSizeCache` call attempts a network refresh iff
the cache has never been successfully populated, or no access timestamp has
ever been recorded, or more than five minutes have elapsed since the last
access; a call with no prior successful refresh always attempts one; and two
calls within five minutes of each other trigger at most one refresh
provided the first call leaves the cache populated. -/
theorem c1_amended (s : CacheState) (t : Nat) (g1 g2 : GetCall) (m : SizeMap)
    (h1 : (getSizeCache g1.tCheck g1.tUpd g1.tAcc g1.resp s).state.sizeCache = some m)
    (h2 : g2.tCheck - g1.tAcc ≤ fiveMinutesInMs) :
    (refreshCondition s t = true ↔
      (s.sizeCache = none ∨ s.lastAccessedAt = none ∨
        fiveMinutesInMs < t - s.lastAccessedAt.getD 0)) ∧
    (s.sizeCache = none → refreshCondition s t = true) ∧
    (getSizeCache g2.tCheck g2.tUpd g2.tAcc g2.resp
        (getSizeCache g1.tCheck g1.tUpd g1.tAcc g1.resp s).state).refreshed = false ∧
    ((if (getSizeCache g1.tCheck g1.tUpd g1.tAcc g1.resp s).refreshed then 1 else 0) +
        (if (getSizeCache g2.tCheck g2.tUpd g2.tAcc g2.resp
          (getSizeCache g1.tCheck g1.tUpd g1.tAcc g1.resp s).state).refreshed then 1 else 0)
      ≤ 1) := by
  have hiff : refreshCondition s t = true ↔
      (s.sizeCache = none ∨ s.lastAccessedAt = none ∨
        fiveMinutesInMs < t - s.lastAccessedAt.getD 0) := by
    rcases s with ⟨sc, lu, la⟩
    cases sc <;> cases la <;> simp [refreshCondition]
  have hacc : (getSizeCache g1.tCheck g1.tUpd g1.tAcc g1.resp s).state.lastAccessedAt =
      some g1.tAcc := rfl
  have hsecond : (getSizeCache g2.tCheck g2.tUpd g2.tAcc g2.resp
      (getSizeCache g1.tCheck g1.tUpd g1.tAcc g1.resp s).state).refreshed = false :=
    refreshCondition_eq_false _ _ m g1.tAcc h1 hacc h2
  refine ⟨hiff, ?_, hsecond, ?_⟩
  · intro hnone
    rcases s with ⟨sc, lu, la⟩
    simp only at hnone
    subst hnone
    cases la <;> simp [refreshCondition]
  · rw [hsecond]
    cases (getSizeCache g1.tCheck g1.tUpd g1.tAcc g1.resp s).refreshed <;> simp

/-- Witness for `c1_amended` at a concrete run: a first call from the empty
state at time 0 with a successful refresh, a second call one minute later. -/
theorem c1_amended_witness :
    (getSizeCache 60000 60000 60000 none
      (getSizeCache 0 0 0 (some demoCats) CacheState.initial).state).refreshed = false :=
  (c1_amended CacheState.initial 0 ⟨0, 0, 0, some demoCats⟩ ⟨60000, 60000, 60000, none⟩
    (buildSizeCache demoCats) (by decide) (by decide)).2.2.1

/-- Claim C2 is false as stated: a category with an empty (falsy) name is
skipped by the guard in `getCategories`, so a size name occurring only under
such a category appears across the categories of the response yet gets no
cache entry. -/
theorem c2_counterexample :
    ("s" ∈ (([⟨"", [⟨"s", 10, 10, "image/png"⟩]⟩] : List Category).map
        (fun c => c.sizes.map (fun sz => sz.name))).flatten) ∧
    recordLookup (buildSizeCache [⟨"", [⟨"s", 10, 10, "image/png"⟩]⟩]) "s" = none := by
  decide

/-- Claim C2 (amended): after a successful refresh the cache is exactly
`buildSizeCache` of the response; looking up any name yields the LAST
occurrence, in iteration order, among the sizes of the categories with a
non-empty name (so on cross-category collisions the last category wins, and
names under empty-named categories are absent); and the keys are distinct
(exactly one entry per distinct such size name). -/
theorem c2_amended (cats : List Category) (t : Nat) (s : CacheState) (k : String) :
    ((getCategories (some cats) t s).1.sizeCache = some (buildSizeCache cats)) ∧
    (recordLookup (buildSizeCache cats) k =
      (validSizes cats).reverse.find? (fun sz => sz.name == k)) ∧
    ((recordLookup (buildSizeCache cats) k ≠ none) ↔
      k ∈ (validSizes cats).map (fun sz => sz.name)) ∧
    (recordKeys (buildSizeCache cats)).Nodup := by
  have hlook : recordLookup (buildSizeCache cats) k =
      (validSizes cats).reverse.find? (fun sz => sz.name == k) := by
    rw [buildSizeCache_eq_foldl_validSizes, recordLookup_foldl_sizeInsert]
    simp [recordLookup]
  refine ⟨rfl, hlook, ?_, ?_⟩
  · rw [hlook]
    constructor
    · intro h
      rcases Option.ne_none_iff_exists.mp h with ⟨sz, hsz⟩
      have hmem := List.mem_of_find?_eq_some hsz.symm
      have hp := List.find?_some hsz.symm
      simp [beq_iff_eq] at hp
      exact List.mem_map.mpr ⟨sz, by simpa using hmem, hp⟩
    · intro h
      rcases List.mem_map.mp h with ⟨sz, hmem, hname⟩
      have : ((validSizes cats).reverse.find? (fun sz => sz.name == k)).isSome := by
        apply List.find?_isSome.mpr
        exact ⟨sz, by simpa using hmem, by simp [beq_iff_eq, hname]⟩
      intro hnone
      rw [hnone] at this
      simp at this
  · rw [buildSizeCache_eq_foldl_validSizes]
    exact nodup_recordKeys_foldl_sizeInsert _ _ (by simp [recordKeys])

/-- Claim C3: a failed refresh attempt (non-2xx, transport error, or
body-parse error — all reach `getCategories`' silent `return null` paths)
leaves the mapping and the last-refresh timestamp exactly as they were, and
`getSizeCache` still returns the previous (possibly stale, possibly absent)
mapping instead of surfacing the failure. -/
theorem c3_failed_refresh_preserves_cache (s : CacheState) (tc tu ta : Nat) :
    ((getCategories none tu s).1 = s) ∧
    ((getCategories none tu s).2 = none) ∧
    ((getSizeCache tc tu ta none s).state.sizeCache = s.sizeCache) ∧
    ((getSizeCache tc tu ta none s).state.lastUpdatedAt = s.lastUpdatedAt) ∧
    ((getSizeCache tc tu ta none s).returned = s.sizeCache) := by
  refine ⟨rfl, rfl, ?_, ?_, ?_⟩ <;> simp [getSizeCache, getCategories]

/-- Claim C4: once the cache is populated and carries an access timestamp,
any run of `getSizeCache` calls each of whose staleness checks happens
within five minutes of the previous call's access stamp performs zero
network refreshes and leaves the mapping unchanged forever — staleness is
measured from the unconditionally-updated access timestamp, not from the
last successful write. -/
theorem c4_steady_access_never_refreshes (s : CacheState) (m : SizeMap) (t0 : Nat)
    (calls : List GetCall)
    (hm : s.sizeCache = some m) (ha : s.lastAccessedAt = some t0)
    (hchain : withinFiveOfPrev t0 calls = true) :
    (runGets s calls).2 = 0 ∧ (runGets s calls).1.sizeCache = some m := by
  induction calls generalizing s t0 with
  | nil => simpa [runGets] using hm
  | cons c cs ih =>
    rw [withinFiveOfPrev, Bool.and_eq_true] at hchain
    obtain ⟨hle, hrest⟩ := hchain
    have hle2 : c.tCheck - t0 ≤ fiveMinutesInMs := by simpa using hle
    have hrc : refreshCondition s c.tCheck = false :=
      refreshCondition_eq_false s c.tCheck m t0 hm ha hle2
    have hstate : (getSizeCache c.tCheck c.tUpd c.tAcc c.resp s).state =
        { s with lastAccessedAt := some c.tAcc } := by
      simp [getSizeCache, hrc]
    have href : (getSizeCache c.tCheck c.tUpd c.tAcc c.resp s).refreshed = false := hrc
    have := ih ({ s with lastAccessedAt := some c.tAcc }) c.tAcc (by simpa using hm) rfl hrest
    simp only [runGets, hstate, href, if_false]
    exact ⟨by simpa using this.1, this.2⟩

/-- Witness for `c4_steady_access_never_refreshes`: a populated cache
accessed at t=0 then polled at 200s and 400s (the second poll even has a
fresh category list available) never refreshes. -/
theorem c4_witness :
    (runGets ⟨some (buildSizeCache demoCats), some 0, some 0⟩
      [⟨200000, 200000, 200000, none⟩, ⟨400000, 400000, 400000, some demoCats2⟩]).2 = 0 ∧
    (runGets ⟨some (buildSizeCache demoCats), some 0, some 0⟩
      [⟨200000, 200000, 200000, none⟩, ⟨400000, 400000, 400000, some demoCats2⟩]).1.sizeCache =
      some (buildSizeCache demoCats) :=
  c4_steady_access_never_refreshes _ (buildSizeCache demoCats) 0 _ rfl rfl (by decide)

/-- Claim C5: for a failed response whose content-type includes
`application/json`, the normalized message is the pretty-printed JSON of the
parsed body when that body parses to an object with an `error` field, and
the raw body text otherwise (non-object-with-error parse, or parse failure);
in particular a 404 with body `«‹error›:‹not found›»` yields the
pretty-printed object. -/
theorem c5_json_error_messages :
    (∀ status : Nat, ∀ ct body : String, ∀ v : Json,
       strIncludes ct "application/json" = true →
       jsonParse body = some v → hasErrorField v = true →
       normalizeFailureMessage status ct body = jsonStringify2 v) ∧
    (∀ status : Nat, ∀ ct body : String, ∀ v : Json,
       strIncludes ct "application/json" = true →
       jsonParse body = some v → hasErrorField v = false →
       normalizeFailureMessage status ct body = body) ∧
    (∀ status : Nat, ∀ ct body : String,
       strIncludes ct "application/json" = true →
       jsonParse body = none →
       normalizeFailureMessage status ct body = body) ∧
    (normalizeFailureMessage 404 "application/json" "\x7b\"error\":\"not found\"\x7d" =
      "\x7b\n  \"error\": \"not found\"\n\x7d") := by
  refine ⟨?_, ?_, ?_, by decide⟩
  · intro status ct body v hct hp he
    simp [normalizeFailureMessage, hct, hp, he]
  · intro status ct body v hct hp he
    simp [normalizeFailureMessage, hct, hp, he]
  · intro status ct body hct hp
    simp [normalizeFailureMessage, hct, hp]

/-- Witness for `c5_json_error_messages` at a concrete failed response. -/
theorem c5_witness :
    normalizeFailureMessage 500 "application/json; charset=utf-8" "\x7b\"error\":true\x7d" =
      "\x7b\n  \"error\": true\n\x7d" :=
  c5_json_error_messages.1 500 "application/json; charset=utf-8" "\x7b\"error\":true\x7d"
    (.obj [("error", .bool true)]) (by decide) (by rfl) (by rfl)

/-- Claim C6 is false as stated: the handler tests the JSON branch first, so
a failed response whose content-type includes BOTH `application/json` and
`text/html` is not given the HTML treatment — its `<pre>` block is ignored
and the raw body text is used. -/
theorem c6_counterexample :
    (strIncludes "text/html, application/json" "text/html" = true) ∧
    (normalizeFailureMessage 500 "text/html, application/json"
        "<html><pre>Oops</pre></html>" ≠ "Server error: Oops") ∧
    (normalizeFailureMessage 500 "text/html, application/json"
        "<html><pre>Oops</pre></html>" = "<html><pre>Oops</pre></html>") := by
  decide

/-- Claim C6 (amended): for every failed response whose content-type
includes `text/html` and does NOT include `application/json`: with a
`<pre>...</pre>` block present the message is "Server error: " plus the
block's content with `<br>` tags to newlines, `&nbsp;`/`&#39;` decoded and
the whole trimmed; with no such block it is the generic HTML-error-page
message carrying the status; the concrete 500 example renders as stated. -/
theorem c6_amended :
    (∀ status : Nat, ∀ ct body inner : String,
       strIncludes ct "application/json" = false →
       strIncludes ct "text/html" = true →
       extractPre body = some inner →
       normalizeFailureMessage status ct body = "Server error: " ++ htmlPreDecode inner) ∧
    (∀ status : Nat, ∀ ct body : String,
       strIncludes ct "application/json" = false →
       strIncludes ct "text/html" = true →
       extractPre body = none →
       normalizeFailureMessage status ct body =
         "Server returned HTML error page (" ++ toString status ++ ")") ∧
    (normalizeFailureMessage 500 "text/html" "<html><pre>Internal Error</pre></html>" =
      "Server error: Internal Error") := by
  refine ⟨?_, ?_, by decide⟩
  · intro status ct body inner hj hh hp
    simp [normalizeFailureMessage, hj, hh, hp]
  · intro status ct body hj hh hp
    simp [normalizeFailureMessage, hj, hh, hp]

/-- Witness for `c6_amended`: a `<pre>` block with a `<br>` tag and an
`&nbsp;` entity is cleaned up and prefixed. -/
theorem c6_witness :
    normalizeFailureMessage 503 "text/html; charset=utf-8" "<pre>a&nbsp;b<br/>c</pre>" =
      "Server error: a b\nc" :=
  c6_amended.1 503 "text/html; charset=utf-8" "<pre>a&nbsp;b<br/>c</pre>" "a&nbsp;b<br/>c"
    (by decide) (by decide) (by rfl)

/-- Claim C7: a response with a 2xx status whose body is not valid JSON
produces a failure result — a single error-flagged text block whose message
is "Invalid JSON response: " plus the body truncated to 200 characters —
never a success. -/
theorem c7_invalid_success_body_fails (status : Nat) (ct body : String)
    (hok : statusOk status = true) (hparse : jsonParse body = none) :
    idxGetImageMetadata (.resp status ct body) =
      ⟨[⟨"text", "Error: " ++ ("Invalid JSON response: " ++ strTake 200 body)⟩], true⟩ := by
  simp [idxGetImageMetadata, hok, hparse, errResult]

/-- Witness for `c7_invalid_success_body_fails` at status 200, body
"not json". -/
theorem c7_witness :
    idxGetImageMetadata (.resp 200 "application/json" "not json") =
      ⟨[⟨"text", "Error: Invalid JSON response: not json"⟩], true⟩ :=
  c7_invalid_success_body_fails 200 "application/json" "not json" (by decide) (by rfl)

/-- Claim C8: every upload request is a POST to
`/api/image/«category»?forceImmediateResize=«flag»`, with the flag `true`
exactly for `upload_and_resize_image` and `false` exactly for
`upload_image`. -/
theorem c8_upload_resize_flag (t : UploadTool) (category : String) :
    ((uploadToolRequest t category).method = "POST") ∧
    ((uploadToolRequest t category).path =
      "/api/image/" ++ category ++ "?forceImmediateResize=" ++
        (if t = UploadTool.uploadAndResizeImage then "true" else "false")) ∧
    (uploadToolResize t = true ↔ t = UploadTool.uploadAndResizeImage) ∧
    (uploadToolResize t = false ↔ t = UploadTool.uploadImage) := by
  cases t <;> simp [uploadToolRequest, uploadRequest, uploadToolResize]

set_option maxRecDepth 1000000 in
/-- Claim C9 names intent the part_000 variant misses: on a two-category
response, the part_000 `list_categories` text promises "Found 2 categories"
but contains nothing of the second category (its `return` sits inside the
loop), while the `src/index.ts` variant renders every category's name and
every size's dimensions and MIME type. -/
theorem c9_part0_renders_only_first_category :
    ((p0ListCategoriesText demoCats2).map (fun t => strIncludes t "banners") = some false) ∧
    ((p0ListCategoriesText demoCats2).map
        (fun t => strIncludes t "Found 2 categories") = some true) ∧
    ((p0ListCategoriesText demoCats2).map
        (fun t => strIncludes t "- **thumb**: 64×64 pixels (image/png)") = some true) ∧
    (strIncludes (idxListCategoriesText demoCats2Json) "### avatars" = true) ∧
    (strIncludes (idxListCategoriesText demoCats2Json) "### banners" = true) ∧
    (strIncludes (idxListCategoriesText demoCats2Json)
        "- **thumb**: 64×64 pixels (image/png)" = true) ∧
    (strIncludes (idxListCategoriesText demoCats2Json)
        "- **wide**: 800×200 pixels (image/jpeg)" = true) := by
  decide

/-- Claim C10 is false as stated: in part_000, `list_categories` performs
its fetch through `getCategories`, which swallows every failure mode
(transport error, non-2xx status, unparsable body) and returns null; the
handler then answers with a plain "No categories are currently available."
text block that neither starts with "Error: " nor carries `isError`. -/
theorem c10_counterexample :
    ((p0ListCategories none 0 CacheState.initial).1 =
      some ⟨[⟨"text", "No categories are currently available."⟩], false⟩) ∧
    ((p0ListCategories none 0 CacheState.initial).1.map (fun r => r.isError) = some false) ∧
    (strStartsWith "No categories are currently available." "Error: " = false) := by
  decide

/-- Claim C10 (amended): across every tool handler of all three variants,
every failure mode (transport error, non-2xx status, unparsable success
body, local file-read error, part_000's invalid-upload-format check) ends
in the catch-block shape — a single `text` content block whose text starts
with "Error: ", with `isError` true — and never escapes as an exception
(each handler is a total function into results), with one exception:
part_000's `list_categories` swallows its fetch failures inside
`getCategories` and returns an un-flagged "No categories are currently
available." block, never an error-flagged one. -/
theorem c10_amended :
    (∀ o : HttpOutcome,
      ((idxGetImageMetadata o).isError = idxIsFailure o) ∧
      (idxIsFailure o = true → ∃ m : String, idxGetImageMetadata o = errResult m)) ∧
    (∀ o : HttpOutcome,
      ((idxListCategories o).isError = idxIsFailure o) ∧
      (idxIsFailure o = true → ∃ m : String, idxListCategories o = errResult m)) ∧
    (∀ uuid size : String, ∀ o : HttpOutcome,
      ((idxGetResizedImage uuid size o).isError = idxIsFailure o) ∧
      (idxIsFailure o = true →
        ∃ m : String, idxGetResizedImage uuid size o = errResult m)) ∧
    (∀ o : UploadOutcome,
      ((idxUploadHandler o).isError = UploadOutcome.isFailure o) ∧
      (UploadOutcome.isFailure o = true →
        ∃ m : String, idxUploadHandler o = errResult m)) ∧
    (∀ o : FetchOutcome ImageMetadata, ∀ tc tu ta : Nat,
       ∀ resp : Option (List Category), ∀ s : CacheState,
      ((p0GetImageMetadata o tc tu ta resp s).1.isError = FetchOutcome.isFailure o) ∧
      (FetchOutcome.isFailure o = true →
        ∃ m : String, (p0GetImageMetadata o tc tu ta resp s).1 = errResult m)) ∧
    (∀ o : FetchOutcome ImageMetadata, ∀ tc tu ta : Nat,
       ∀ resp : Option (List Category), ∀ s : CacheState,
      ((p0TranscodeImage o tc tu ta resp s).1.isError = FetchOutcome.isFailure o) ∧
      (FetchOutcome.isFailure o = true →
        ∃ m : String, (p0TranscodeImage o tc tu ta resp s).1 = errResult m)) ∧
    (∀ tUpd : Nat, ∀ s : CacheState,
      (p0ListCategories none tUpd s).1 =
        some ⟨[⟨"text", "No categories are currently available."⟩], false⟩) ∧
    (∀ resp : Option (List Category), ∀ tUpd : Nat, ∀ s : CacheState, ∀ r : ToolResult,
      (p0ListCategories resp tUpd s).1 = some r → r.isError = false) ∧
    (∀ imageServiceId size : String, ∀ o : FetchOutcome Json,
      ((p0GetResizedImage imageServiceId size o).isError = FetchOutcome.isFailure o) ∧
      (FetchOutcome.isFailure o = true →
        ∃ m : String, p0GetResizedImage imageServiceId size o = errResult m)) ∧
    (∀ label : String, ∀ o : UploadFetchOutcome, ∀ tc tu ta : Nat,
       ∀ resp : Option (List Category), ∀ s : CacheState,
      ((p0UploadHandler label o tc tu ta resp s).1.isError = UploadFetchOutcome.isFailure o) ∧
      (UploadFetchOutcome.isFailure o = true →
        ∃ m : String, (p0UploadHandler label o tc tu ta resp s).1 = errResult m)) ∧
    (∀ o : FetchOutcome Json,
      ((p1GetImageMetadata o).isError = FetchOutcome.isFailure o) ∧
      (FetchOutcome.isFailure o = true →
        ∃ m : String, p1GetImageMetadata o = errResult m)) ∧
    (∀ o : FetchOutcome Json,
      ((p1GetResizedImage o).isError = FetchOutcome.isFailure o) ∧
      (FetchOutcome.isFailure o = true →
        ∃ m : String, p1GetResizedImage o = errResult m)) ∧
    (∀ o : UploadJsonOutcome,
      ((p1UploadHandler o).isError = UploadJsonOutcome.isFailure o) ∧
      (UploadJsonOutcome.isFailure o = true →
        ∃ m : String, p1UploadHandler o = errResult m)) ∧
    (∀ m : String, errResult m = ⟨[⟨"text", "Error: " ++ m⟩], true⟩) ∧
    (∀ m : String, strStartsWith ("Error: " ++ m) "Error: " = true) := by
  refine ⟨?_, ?_, ?_, ?_, ?_, ?_, ?_, ?_, ?_, ?_, ?_, ?_, ?_, fun m => rfl, ?_⟩
  · intro o
    match o with
    | .netErr m => exact ⟨rfl, fun _ => ⟨m, rfl⟩⟩
    | .resp status ct body =>
      cases hok : statusOk status with
      | true =>
        cases hp : jsonParse body with
        | none =>
          refine ⟨by simp [idxGetImageMetadata, idxIsFailure, hok, hp, errResult], fun _ => ?_⟩
          exact ⟨"Invalid JSON response: " ++ strTake 200 body,
            by simp [idxGetImageMetadata, hok, hp]⟩
        | some v =>
          refine ⟨?_, fun h => ?_⟩
          · by_cases hobj : isJsObject v = true <;>
              simp [idxGetImageMetadata, idxIsFailure, hok, hp, hobj, okResult]
          · exfalso; simp [idxIsFailure, hok, hp] at h
      | false =>
        refine ⟨by simp [idxGetImageMetadata, idxIsFailure, hok, errResult], fun _ => ?_⟩
        exact ⟨"Failed to get image metadata: " ++ toString status ++ " " ++
          normalizeFailureMessage status ct body, by simp [idxGetImageMetadata, hok]⟩
  · intro o
    match o with
    | .netErr m => exact ⟨rfl, fun _ => ⟨m, rfl⟩⟩
    | .resp status ct body =>
      cases hok : statusOk status with
      | true =>
        cases hp : jsonParse body with
        | none =>
          refine ⟨by simp [idxListCategories, idxIsFailure, hok, hp, errResult], fun _ => ?_⟩
          exact ⟨"Invalid JSON response: " ++ strTake 200 body,
            by simp [idxListCategories, hok, hp]⟩
        | some v =>
          refine ⟨by simp [idxListCategories, idxIsFailure, hok, hp, okResult], fun h => ?_⟩
          exfalso; simp [idxIsFailure, hok, hp] at h
      | false =>
        refine ⟨by simp [idxListCategories, idxIsFailure, hok, errResult], fun _ => ?_⟩
        exact ⟨"Failed to list categories: " ++ toString status ++ " " ++
          normalizeFailureMessage status ct body, by simp [idxListCategories, hok]⟩
  · intro uuid size o
    match o with
    | .netErr m => exact ⟨rfl, fun _ => ⟨m, rfl⟩⟩
    | .resp status ct body =>
      cases hok : statusOk status with
      | true =>
        cases hp : jsonParse body with
        | none =>
          refine ⟨by simp [idxGetResizedImage, idxIsFailure, hok, hp, errResult], fun _ => ?_⟩
          exact ⟨"Invalid JSON response: " ++ strTake 200 body,
            by simp [idxGetResizedImage, hok, hp]⟩
        | some v =>
          refine ⟨by simp [idxGetResizedImage, idxIsFailure, hok, hp, okResult], fun h => ?_⟩
          exfalso; simp [idxIsFailure, hok, hp] at h
      | false =>
        refine ⟨by simp [idxGetResizedImage, idxIsFailure, hok, errResult], fun _ => ?_⟩
        exact ⟨"Failed to get resized image URL: " ++ toString status ++ " " ++
          normalizeFailureMessage status ct body, by simp [idxGetResizedImage, hok]⟩
  · intro o
    match o with
    | .fileErr m => exact ⟨rfl, fun _ => ⟨m, rfl⟩⟩
    | .netErr m => exact ⟨rfl, fun _ => ⟨m, rfl⟩⟩
    | .resp status ct body =>
      cases hok : statusOk status with
      | true =>
        cases hp : jsonParse body with
        | none =>
          refine ⟨by simp [idxUploadHandler, UploadOutcome.isFailure, hok, hp, errResult],
            fun _ => ?_⟩
          exact ⟨"Invalid JSON response: " ++ strTake 200 body,
            by simp [idxUploadHandler, hok, hp]⟩
        | some v =>
          refine ⟨by simp [idxUploadHandler, UploadOutcome.isFailure, hok, hp, okResult],
            fun h => ?_⟩
          exfalso; simp [UploadOutcome.isFailure, hok, hp] at h
      | false =>
        refine ⟨by simp [idxUploadHandler, UploadOutcome.isFailure, hok, errResult],
          fun _ => ?_⟩
        exact ⟨"Failed to upload image: " ++ toString status ++ " " ++
          normalizeFailureMessage status ct body, by simp [idxUploadHandler, hok]⟩
  · intro o tc tu ta resp s
    match o with
    | .netErr m => exact ⟨rfl, fun _ => ⟨m, rfl⟩⟩
    | .httpErr status bodyText => exact ⟨rfl, fun _ => ⟨_, rfl⟩⟩
    | .parseErr m => exact ⟨rfl, fun _ => ⟨m, rfl⟩⟩
    | .ok md => exact ⟨rfl, fun h => by simp [FetchOutcome.isFailure] at h⟩
  · intro o tc tu ta resp s
    match o with
    | .netErr m => exact ⟨rfl, fun _ => ⟨m, rfl⟩⟩
    | .httpErr status bodyText => exact ⟨rfl, fun _ => ⟨_, rfl⟩⟩
    | .parseErr m => exact ⟨rfl, fun _ => ⟨m, rfl⟩⟩
    | .ok md => exact ⟨rfl, fun h => by simp [FetchOutcome.isFailure] at h⟩
  · intro tUpd s
    rfl
  · intro resp tUpd s r h
    match resp with
    | none =>
      rw [← Option.some.inj h]
    | some cats =>
      match cats with
      | [] => exact Option.noConfusion h
      | c :: rest =>
        rw [← Option.some.inj h]
        rfl
  · intro imageServiceId size o
    match o with
    | .netErr m => exact ⟨rfl, fun _ => ⟨m, rfl⟩⟩
    | .httpErr status bodyText => exact ⟨rfl, fun _ => ⟨_, rfl⟩⟩
    | .parseErr m => exact ⟨rfl, fun _ => ⟨m, rfl⟩⟩
    | .ok data => exact ⟨rfl, fun h => by simp [FetchOutcome.isFailure] at h⟩
  · intro label o tc tu ta resp s
    match o with
    | .fileErr m => exact ⟨rfl, fun _ => ⟨m, rfl⟩⟩
    | .netErr m => exact ⟨rfl, fun _ => ⟨m, rfl⟩⟩
    | .httpErr status bodyText => exact ⟨rfl, fun _ => ⟨_, rfl⟩⟩
    | .parseErr m => exact ⟨rfl, fun _ => ⟨m, rfl⟩⟩
    | .ok md =>
      by_cases hv : md.id = "" ∨ md.category = ""
      · have hf : UploadFetchOutcome.isFailure (.ok md) = true := by
          simp only [UploadFetchOutcome.isFailure, Bool.or_eq_true, beq_iff_eq]
          exact hv
        refine ⟨?_, fun _ => ?_⟩
        · rw [hf]
          simp [p0UploadHandler, hv, errResult]
        · exact ⟨"Invalid response format: missing required fields. Response: " ++
            jsonStringifyC (imageMetadataToJson md), by simp [p0UploadHandler, hv]⟩
      · have hf : UploadFetchOutcome.isFailure (.ok md) = false := by
          push_neg at hv
          simp only [UploadFetchOutcome.isFailure, Bool.or_eq_false_iff, beq_eq_false_iff_ne,
            ne_eq]
          exact hv
        refine ⟨?_, fun h => ?_⟩
        · rw [hf]
          simp [p0UploadHandler, hv, okResult]
        · exfalso
          rw [hf] at h
          exact Bool.noConfusion h
  · intro o
    match o with
    | .netErr m => exact ⟨rfl, fun _ => ⟨m, rfl⟩⟩
    | .httpErr status bodyText => exact ⟨rfl, fun _ => ⟨_, rfl⟩⟩
    | .parseErr m => exact ⟨rfl, fun _ => ⟨m, rfl⟩⟩
    | .ok data => exact ⟨rfl, fun h => by simp [FetchOutcome.isFailure] at h⟩
  · intro o
    match o with
    | .netErr m => exact ⟨rfl, fun _ => ⟨m, rfl⟩⟩
    | .httpErr status bodyText => exact ⟨rfl, fun _ => ⟨_, rfl⟩⟩
    | .parseErr m => exact ⟨rfl, fun _ => ⟨m, rfl⟩⟩
    | .ok data => exact ⟨rfl, fun h => by simp [FetchOutcome.isFailure] at h⟩
  · intro o
    match o with
    | .fileErr m => exact ⟨rfl, fun _ => ⟨m, rfl⟩⟩
    | .netErr m => exact ⟨rfl, fun _ => ⟨m, rfl⟩⟩
    | .httpErr status bodyText => exact ⟨rfl, fun _ => ⟨_, rfl⟩⟩
    | .parseErr m => exact ⟨rfl, fun _ => ⟨m, rfl⟩⟩
    | .ok data => exact ⟨rfl, fun h => by simp [UploadJsonOutcome.isFailure] at h⟩
  · intro m
    show (stripPrefixL "Error: ".data ("Error: " ++ m).data).isSome = true
    rw [String.data_append, stripPrefixL_append]
    rfl

/-- Witness for `c10_amended`: a 503 plain-text failure of the
`src/index.ts` `list_categories` is a single error-flagged block. -/
theorem c10_amended_witness :
    ∃ m : String, idxListCategories (.resp 503 "text/plain" "boom") = errResult m :=
  (c10_amended.2.1 (.resp 503 "text/plain" "boom")).2 (by decide)

end ImageServiceMCP
